import Mathlib

/-!
Verification of the contact/application submission backend
(src/models/Contact.js, src/models/Application.js).

The development shallowly embeds the mongoose schemas, the multer upload
pipeline, the three route handlers and the error-normalization middleware
as pure Lean functions, and settles the specification's claims about them.
-/

namespace Backend

/-! ### Regular expressions

The email pattern of both schemas
(src/models/Contact.js line 11, src/models/Application.js line 11) is
`/^\w+([\.-]?\w+)*@\w+([\.-]?\w+)*(\.\w{2,3})+$/`.
We embed regular expressions with a standard syntax tree, an inductive
matching semantics, and an executable Brzozowski-derivative matcher.
-/

/-- Syntax of regular expressions: empty language, empty string, a character
class given by a Boolean predicate, alternation, concatenation, Kleene star. -/
inductive Rgx where
  | emp
  | eps
  | cls (p : Char → Bool)
  | alt (r s : Rgx)
  | cat (r s : Rgx)
  | star (r : Rgx)

/-- Inductive matching semantics of a regular expression. -/
inductive RMatch : Rgx → List Char → Prop where
  | eps : RMatch .eps []
  | cls {p : Char → Bool} {c : Char} : p c = true → RMatch (.cls p) [c]
  | altL {r s : Rgx} {l : List Char} : RMatch r l → RMatch (.alt r s) l
  | altR {r s : Rgx} {l : List Char} : RMatch s l → RMatch (.alt r s) l
  | cat {r s : Rgx} {l₁ l₂ : List Char} :
      RMatch r l₁ → RMatch s l₂ → RMatch (.cat r s) (l₁ ++ l₂)
  | starNil {r : Rgx} : RMatch (.star r) []
  | starCons {r : Rgx} {l₁ l₂ : List Char} :
      RMatch r l₁ → RMatch (.star r) l₂ → RMatch (.star r) (l₁ ++ l₂)

/-- Does the regular expression accept the empty string? -/
def nullb : Rgx → Bool
  | .emp => false
  | .eps => true
  | .cls _ => false
  | .alt r s => nullb r || nullb s
  | .cat r s => nullb r && nullb s
  | .star _ => true

/-- Brzozowski derivative of a regular expression with respect to a character. -/
def derv : Rgx → Char → Rgx
  | .emp, _ => .emp
  | .eps, _ => .emp
  | .cls p, c => if p c then .eps else .emp
  | .alt r s, c => .alt (derv r c) (derv s c)
  | .cat r s, c =>
      if nullb r then .alt (.cat (derv r c) s) (derv s c) else .cat (derv r c) s
  | .star r, c => .cat (derv r c) (.star r)

/-- Executable matcher: repeatedly take derivatives, then test nullability. -/
def rmatch (r : Rgx) (l : List Char) : Bool := nullb (l.foldl derv r)

/-! ### The email pattern -/

/-- JavaScript `\w`: ASCII letters, digits, and underscore. -/
def isWordChar (c : Char) : Bool := c.isAlpha || c.isDigit || c == '_'

/-- The class `\w`. -/
def wchar : Rgx := .cls isWordChar

/-- One-or-more repetition `r+`, i.e. `r r*`. -/
def rplus (r : Rgx) : Rgx := .cat r (.star r)

/-- Optional occurrence `r?`, i.e. `ε | r`. -/
def ropt (r : Rgx) : Rgx := .alt .eps r

/-- The sub-pattern `\w+([\.-]?\w+)*` used for the local part and the
domain body of the schema email pattern. -/
def wordRun : Rgx :=
  .cat (rplus wchar)
    (.star (.cat (ropt (.cls (fun c => c == '.' || c == '-'))) (rplus wchar)))

/-- A single chunk `\.\w{2,3}` of the top-level-domain part. -/
def tldChunk : Rgx :=
  .cat (.cls (fun c => c == '.')) (.cat wchar (.cat wchar (ropt wchar)))

/-- The trailing part `(\.\w{2,3})+` of the schema email pattern. -/
def tldPart : Rgx := rplus tldChunk

/-- The full anchored email pattern
`/^\w+([\.-]?\w+)*@\w+([\.-]?\w+)*(\.\w{2,3})+$/` of both schemas. -/
def emailRegex : Rgx :=
  .cat wordRun (.cat (.cls (fun c => c == '@')) (.cat wordRun tldPart))

/-- `regex.test(value)` for the anchored schema email pattern. -/
def emailCheck (s : String) : Bool := rmatch emailRegex s.data

/-- The characters of the final dot-separated label of a character list
(everything after the last dot; the whole list if it has no dot). -/
def afterLastDot (l : List Char) : List Char :=
  (l.reverse.takeWhile (fun c => c != '.')).reverse

/-! ### Decimal rendering of numbers

JavaScript coerces `Date.now()` and `Math.round(Math.random() * 1E9)`
to their decimal string representations when building the stored
filename (src/models/Contact.js lines 58–59). We model that rendering
with a fuel-bounded digit extractor so all definitions reduce in the
kernel. -/

/-- Little-endian base-10 digit list of `n`, with enough fuel. -/
def decDigitsAux : Nat → Nat → List Nat
  | _, 0 => []
  | 0, _ + 1 => []
  | fuel + 1, n + 1 => (n + 1) % 10 :: decDigitsAux fuel ((n + 1) / 10)

/-- Decimal string representation of a natural number, as JavaScript
renders a nonnegative integer. -/
def numToStr (n : Nat) : String :=
  if n = 0 then "0" else ⟨((decDigitsAux n n).map Nat.digitChar).reverse⟩

/-! ### Node's `path.extname` -/

/-- Suffix of a character list starting at its last dot, if any. -/
def extFrom : List Char → Option (List Char)
  | [] => none
  | c :: t =>
    match extFrom t with
    | some e => some e
    | none => if c = '.' then some (c :: t) else none

/-- Node `path.extname` on a basename: the part from the last dot on,
except that a dot-less name, a leading-dot name, and the name `..`
have no extension. -/
def extnameBase (b : List Char) : List Char :=
  match extFrom b with
  | none => []
  | some e =>
    if e.length = b.length then [] else if b = ['.', '.'] then [] else e

/-- Node `path.extname`: ignore trailing slashes, take the basename after
the last remaining slash, and extract its extension. -/
def extname (s : String) : String :=
  ⟨extnameBase
    (((s.data.reverse.dropWhile (fun c => c == '/')).takeWhile
        (fun c => c != '/')).reverse)⟩

/-- The multer diskStorage `filename` callback (src/models/Contact.js
lines 57–60): `Date.now() + '-' + Math.round(Math.random() * 1E9)`
followed by `path.extname(file.originalname)`. The drawn timestamp and
random number are explicit parameters. -/
def filenameFor (ts rnd : Nat) (originalname : String) : String :=
  numToStr ts ++ "-" ++ numToStr rnd ++ extname originalname

/-! ### Records and schema validation -/

/-- Request body of `POST /api/contact`; a field absent from the JSON
body is `none`. -/
structure ContactBody where
  name : Option String
  email : Option String
  message : Option String

/-- A persisted Contact document (contactSchema, src/models/Contact.js
lines 3–21). -/
structure ContactRec where
  name : String
  email : String
  message : String
  createdAt : Nat
deriving DecidableEq

/-- Form fields of `POST /api/apply`; a missing field is `none`. -/
structure ApplyBody where
  name : Option String
  email : Option String
  qualification : Option String
  specialization : Option String

/-- A persisted Application document (applicationSchema,
src/models/Application.js lines 3–29). -/
structure ApplicationRec where
  name : String
  email : String
  qualification : String
  specialization : String
  resumeUrl : String
  createdAt : Nat
deriving DecidableEq

/-- A mongoose `required: [true, msg]` validator on a String path: fails
on an absent value and on the empty string, producing `msg`. -/
def requiredError (v : Option String) (msg : String) : List String :=
  match v with
  | none => [msg]
  | some s => if s == "" then [msg] else []

/-- Validation messages for an email path: `required` is checked first;
the `match` validator is skipped for absent or empty values and otherwise
tests the schema email pattern. -/
def emailErrors (v : Option String) : List String :=
  match v with
  | none => ["Email is required"]
  | some s =>
    if s == "" then ["Email is required"]
    else if emailCheck s then [] else ["Please enter a valid email address"]

/-- All validation messages of contactSchema, in schema path order. -/
def contactValidate (b : ContactBody) : List String :=
  requiredError b.name "Name is required" ++ emailErrors b.email ++
    requiredError b.message "Message is required"

/-- All validation messages of applicationSchema, in schema path order.
The handler always supplies `resumeUrl` itself. -/
def applicationValidate (b : ApplyBody) (resumeUrl : String) : List String :=
  requiredError b.name "Name is required" ++ emailErrors b.email ++
    requiredError b.qualification "Qualification is required" ++
    requiredError b.specialization "Specialization is required" ++
    requiredError (some resumeUrl) "Resume URL is required"

/-- A JavaScript error as the handlers' catch blocks inspect it: either a
mongoose ValidationError (recognized by `error.name === 'ValidationError'`,
carrying one message per violated path) or any other error. -/
inductive JsError where
  | validation (msgs : List String)
  | other (message : String)

/-- Outcome of the document store for a write that passed validation:
success, or a non-validation failure (store unreachable, write error). -/
inductive DbOutcome where
  | ok
  | fail (message : String)

/-- `new Contact({...}).save()`: mongoose validates the document first and
rejects with a ValidationError; otherwise the store either appends the
document or fails with a non-validation error. -/
def saveContact (b : ContactBody) (now : Nat) (db : DbOutcome)
    (store : List ContactRec) : Except JsError (List ContactRec) :=
  match contactValidate b with
  | [] =>
    match db with
    | .ok =>
      let doc : ContactRec :=
        { name := b.name.getD "", email := b.email.getD "",
          message := b.message.getD "", createdAt := now }
      .ok (store ++ [doc])
    | .fail m => .error (.other m)
  | e :: rest => .error (.validation (e :: rest))

/-- `new Application({...}).save()`, analogous to `saveContact`. -/
def saveApplication (b : ApplyBody) (resumeUrl : String) (now : Nat)
    (db : DbOutcome) (store : List ApplicationRec) :
    Except JsError (List ApplicationRec) :=
  match applicationValidate b resumeUrl with
  | [] =>
    match db with
    | .ok =>
      let doc : ApplicationRec :=
        { name := b.name.getD "", email := b.email.getD "",
          qualification := b.qualification.getD "",
          specialization := b.specialization.getD "",
          resumeUrl := resumeUrl, createdAt := now }
      .ok (store ++ [doc])
    | .fail m => .error (.other m)
  | e :: rest => .error (.validation (e :: rest))

/-- The uniform JSON response envelope `{success, message}` with its HTTP
status code. -/
structure HttpResponse where
  status : Nat
  success : Bool
  message : String
deriving DecidableEq

/-- Separator-joined list of strings, as JavaScript `messages.join('. ')`. -/
def joinSep (sep : String) : List String → String
  | [] => ""
  | [s] => s
  | s :: rest => s ++ sep ++ joinSep sep rest

/-- The `POST /api/contact` handler (src/models/Contact.js lines 97–124):
save the new contact; on success respond 201 with the fixed
acknowledgement; on a ValidationError respond 400 with the joined
messages; on any other error respond 500 with a fixed generic message. -/
def postContact (b : ContactBody) (now : Nat) (db : DbOutcome)
    (store : List ContactRec) : HttpResponse × List ContactRec :=
  match saveContact b now db store with
  | .ok store2 =>
    ({ status := 201, success := true,
       message := "Thank you! We will connect shortly." }, store2)
  | .error (.validation msgs) =>
    ({ status := 400, success := false, message := joinSep ". " msgs }, store)
  | .error (.other _) =>
    ({ status := 500, success := false,
       message := "Error submitting form. Please try again." }, store)

/-! ### File intake and the apply pipeline -/

/-- The file part of a multipart request, as multer sees it. -/
structure UploadedFile where
  originalname : String
  mimetype : String
  size : Nat
deriving DecidableEq

/-- A `POST /api/apply` request: form fields, the optional `resume` file,
and the scheme/host used to build the resume URL. -/
structure ApplyRequest where
  body : ApplyBody
  file : Option UploadedFile
  protocol : String
  host : String

/-- The multer `fileFilter` acceptance test (src/models/Contact.js
lines 65–70): only the `application/pdf` mimetype passes. -/
def fileFilterAccepts (f : UploadedFile) : Bool :=
  f.mimetype == "application/pdf"

/-- Result of `upload.single('resume')` for a request: no file part, a
file written to disk under a generated name, a `fileFilter` rejection
(a plain `Error`, not a `multer.MulterError`), or the `LIMIT_FILE_SIZE`
`multer.MulterError` for a file over 5 MB (in which case no file is
retained). -/
inductive MulterOutcome where
  | noFile
  | written (storedName : String)
  | filterError (message : String)
  | sizeError

/-- `upload.single('resume')` (src/models/Contact.js lines 63–74): apply
the fileFilter, enforce the 5 MB limit, and otherwise write the file under
the name generated from the drawn timestamp and random number. -/
def multerSingle (file : Option UploadedFile) (ts rnd : Nat) : MulterOutcome :=
  match file with
  | none => .noFile
  | some f =>
    if !fileFilterAccepts f then .filterError "Only PDF files are allowed!"
    else if 5 * 1024 * 1024 < f.size then .sizeError
    else .written (filenameFor ts rnd f.originalname)

/-- Writing a file into the uploads directory. -/
def writeFile (disk : List String) (fname : String) : List String :=
  disk ++ [fname]

/-- `fs.unlink`: the path no longer exists afterwards. -/
def unlinkFile (disk : List String) (fname : String) : List String :=
  disk.filter (fun p => p != fname)

/-- An error reaching the error-normalization middleware: the
`LIMIT_FILE_SIZE` multer error, any other `multer.MulterError`, or a plain
error with its `message`. -/
inductive MWError where
  | multerSize
  | multerOther
  | plain (message : String)

/-- The error handling middleware (src/models/Contact.js lines 197–218):
multer errors get fixed 400 messages; anything else falls through to a 500
whose message is `err.message || 'Something broke!'`. -/
def errorHandler : MWError → HttpResponse
  | .multerSize =>
    { status := 400, success := false,
      message := "File is too large. Maximum size is 5MB" }
  | .multerOther =>
    { status := 400, success := false, message := "Error uploading file" }
  | .plain m =>
    { status := 500, success := false,
      message := if m == "" then "Something broke!" else m }

/-- The resume URL computed by the apply handler (src/models/Contact.js
line 138). -/
def resumeUrlFor (req : ApplyRequest) (fname : String) : String :=
  req.protocol ++ "://" ++ req.host ++ "/uploads/" ++ fname

/-- Observable outcome of a `POST /api/apply` request: the response, the
uploads directory contents, and the Application collection. -/
structure ApplyResult where
  resp : HttpResponse
  disk : List String
  store : List ApplicationRec

/-- The full `POST /api/apply` pipeline (src/models/Contact.js
lines 127–177 plus the middleware): multer runs first; a fileFilter or
size error goes to the middleware; otherwise the handler rejects a missing
file with 400, computes the resume URL, saves, and on any save failure
unlinks the just-written file before responding 400 (validation) or
500 (other). -/
def postApply (req : ApplyRequest) (ts rnd now : Nat) (db : DbOutcome)
    (disk : List String) (store : List ApplicationRec) : ApplyResult :=
  match multerSingle req.file ts rnd with
  | .filterError m => { resp := errorHandler (.plain m), disk := disk, store := store }
  | .sizeError => { resp := errorHandler .multerSize, disk := disk, store := store }
  | .noFile =>
    { resp := { status := 400, success := false, message := "Please upload a resume" },
      disk := disk, store := store }
  | .written fname =>
    let disk2 := writeFile disk fname
    match saveApplication req.body (resumeUrlFor req fname) now db store with
    | .ok store2 =>
      let resp : HttpResponse :=
        { status := 201, success := true,
          message := "Thank you for your application! We will review it shortly." }
      { resp := resp, disk := disk2, store := store2 }
    | .error (.validation msgs) =>
      { resp := { status := 400, success := false, message := joinSep ". " msgs },
        disk := unlinkFile disk2 fname, store := store }
    | .error (.other _) =>
      let resp : HttpResponse :=
        { status := 500, success := false,
          message := "Error submitting application. Please try again." }
      { resp := resp, disk := unlinkFile disk2 fname, store := store }

/-! ### The listing endpoint -/

/-- Response envelope of `GET /api/applications`. -/
structure ListResponse where
  status : Nat
  success : Bool
  data : List ApplicationRec

/-- The comparator realizing `.sort({ createdAt: -1 })`. -/
def createdAtDesc (a b : ApplicationRec) : Bool :=
  decide (b.createdAt ≤ a.createdAt)

/-- The `GET /api/applications` handler (src/models/Contact.js
lines 180–194): all Application records, newest first, status 200. -/
def getApplications (store : List ApplicationRec) : ListResponse :=
  { status := 200, success := true, data := store.mergeSort createdAtDesc }

/-! ### Auxiliary notions used by the claims -/

/-- `sub` occurs contiguously inside `big`. -/
def containsSub (big sub : List Char) : Prop :=
  ∃ pre post, big = pre ++ sub ++ post

/-- A required field is violated: absent, or present but empty. -/
def fieldMissing (v : Option String) : Prop := v = none ∨ v = some ""

/-- Stored filenames of 1000 simultaneous uploads that all draw timestamp 0
and random number 0. -/
def uploads1000 : List String :=
  (List.replicate 1000 ((0 : Nat), (0 : Nat))).map
    (fun p => filenameFor p.1 p.2 "resume.pdf")

/-- A concrete apply request whose file is not a PDF. -/
def nonPdfRequest : ApplyRequest :=
  { body := { name := some "Jane", email := some "jane@x.com",
              qualification := some "BSc", specialization := some "Bio" },
    file := some { originalname := "resume.txt", mimetype := "text/plain",
                   size := 1024 },
    protocol := "http", host := "localhost:5000" }

/-- A concrete apply request with no file part. -/
def noFileRequest : ApplyRequest :=
  { body := { name := some "Jane", email := some "jane@x.com",
              qualification := some "BSc", specialization := some "Bio" },
    file := none, protocol := "http", host := "localhost:5000" }

/-- A concrete apply request with a small valid PDF. -/
def pdfRequest : ApplyRequest :=
  { body := { name := some "Jane", email := some "jane@x.com",
              qualification := some "BSc", specialization := some "Bio" },
    file := some { originalname := "resume.pdf", mimetype := "application/pdf",
                   size := 1024 },
    protocol := "http", host := "localhost:5000" }

/-! ## Lemmas: matcher soundness -/

theorem nullb_sound {r : Rgx} (h : nullb r = true) : RMatch r [] := by
  induction r with
  | emp => simp [nullb] at h
  | eps => exact .eps
  | cls p => simp [nullb] at h
  | alt r s ihr ihs =>
      simp only [nullb, Bool.or_eq_true] at h
      rcases h with h | h
      · exact .altL (ihr h)
      · exact .altR (ihs h)
  | cat r s ihr ihs =>
      simp only [nullb, Bool.and_eq_true] at h
      exact RMatch.cat (ihr h.1) (ihs h.2)
  | star r ih => exact .starNil

theorem derv_sound {r : Rgx} {c : Char} {l : List Char}
    (h : RMatch (derv r c) l) : RMatch r (c :: l) := by
  induction r generalizing l with
  | emp => exact absurd h (by intro h; cases h)
  | eps => exact absurd h (by intro h; cases h)
  | cls p =>
      by_cases hp : p c = true
      · rw [derv, if_pos hp] at h
        cases h
        exact .cls hp
      · rw [derv, if_neg hp] at h
        cases h
  | alt r s ihr ihs =>
      cases h with
      | altL h => exact .altL (ihr h)
      | altR h => exact .altR (ihs h)
  | cat r s ihr ihs =>
      rw [derv] at h
      by_cases hn : nullb r = true
      · rw [if_pos hn] at h
        cases h with
        | altL h =>
            cases h with
            | cat h₁ h₂ => exact RMatch.cat (ihr h₁) h₂
        | altR h =>
            exact RMatch.cat (nullb_sound hn) (ihs h)
      · rw [if_neg hn] at h
        cases h with
        | cat h₁ h₂ => exact RMatch.cat (ihr h₁) h₂
  | star r ih =>
      cases h with
      | cat h₁ h₂ => exact RMatch.starCons (ih h₁) h₂

theorem rmatch_sound {r : Rgx} {l : List Char} (h : rmatch r l = true) :
    RMatch r l := by
  induction l generalizing r with
  | nil => exact nullb_sound h
  | cons c t ih => exact derv_sound (ih h)

/-! ## Claim C3: submission without a file -/

/-- C3: an application submission with no attached file is answered with
HTTP 400, success = false and the fixed message, before any store write:
both the uploads directory and the Application collection are unchanged. -/
theorem apply_noFile_400_store_unchanged
    (req : ApplyRequest) (ts rnd now : Nat) (db : DbOutcome)
    (disk : List String) (store : List ApplicationRec)
    (hf : req.file = none) :
    postApply req ts rnd now db disk store =
      { resp := { status := 400, success := false,
                  message := "Please upload a resume" },
        disk := disk, store := store } := by
  simp [postApply, multerSingle, hf]

/-- Witness for C3 at a concrete request. -/
theorem apply_noFile_400_store_unchanged_witness :
    postApply noFileRequest 3 4 5 .ok ["old.pdf"] [] =
      { resp := { status := 400, success := false,
                  message := "Please upload a resume" },
        disk := ["old.pdf"], store := [] } :=
  apply_noFile_400_store_unchanged noFileRequest 3 4 5 .ok ["old.pdf"] [] rfl

/-! ## Claim C2: submission with a non-PDF file -/

/-- C2 (counterexample to the claimed HTTP 400): for a concrete non-PDF
submission the pipeline answers HTTP 500, not 400, because the fileFilter
rejection is a plain Error rather than a MulterError and therefore reaches
the middleware's generic 500 branch. No file is retained. -/
theorem apply_nonPdf_counterexample :
    (postApply nonPdfRequest 0 0 0 .ok [] []).resp.status = 500 ∧
    (postApply nonPdfRequest 0 0 0 .ok [] []).resp.status ≠ 400 ∧
    (postApply nonPdfRequest 0 0 0 .ok [] []).disk = [] := by
  refine ⟨rfl, by decide, rfl⟩

/-- C2 (amended): a submission with a non-PDF file is rejected by the
fileFilter with HTTP 500 and the filter's own message, and no file is
retained on disk; the store is unchanged. -/
theorem apply_nonPdf_500_no_file
    (req : ApplyRequest) (ts rnd now : Nat) (db : DbOutcome)
    (disk : List String) (store : List ApplicationRec) (f : UploadedFile)
    (hf : req.file = some f) (hm : f.mimetype ≠ "application/pdf") :
    postApply req ts rnd now db disk store =
      { resp := { status := 500, success := false,
                  message := "Only PDF files are allowed!" },
        disk := disk, store := store } := by
  have hacc : fileFilterAccepts f = false := by
    simp [fileFilterAccepts]
    exact hm
  simp [postApply, multerSingle, hf, hacc, errorHandler]

/-- Witness for the amended C2 at a concrete request. -/
theorem apply_nonPdf_500_no_file_witness :
    postApply nonPdfRequest 0 0 0 .ok [] [] =
      { resp := { status := 500, success := false,
                  message := "Only PDF files are allowed!" },
        disk := [], store := [] } :=
  apply_nonPdf_500_no_file nonPdfRequest 0 0 0 .ok [] []
    { originalname := "resume.txt", mimetype := "text/plain", size := 1024 }
    rfl (by decide)

/-! ## Claim C9: non-validation error messages -/

/-- C9 (counterexample): a plain error reaching the middleware is surfaced
with its own message, so the user-visible message of a non-validation
failure is not a fixed generic string. -/
theorem middleware_leaks_internal_message :
    (errorHandler (.plain "internal detail A")).message = "internal detail A" ∧
    (errorHandler (.plain "internal detail B")).message = "internal detail B" ∧
    ("internal detail A" : String) ≠ "internal detail B" :=
  ⟨rfl, rfl, by decide⟩

/-- C9 (amended): non-validation failures caught inside the two handlers are
answered with fixed generic messages independent of the error, and multer
errors get fixed messages from the middleware; but a plain error falling
through to the middleware is surfaced with its own message (or the fallback
when the message is empty). -/
theorem error_messages_amended :
    (∀ (b : ContactBody) (now : Nat) (m : String) (store : List ContactRec),
       contactValidate b = [] →
       (postContact b now (.fail m) store).1 =
         { status := 500, success := false,
           message := "Error submitting form. Please try again." }) ∧
    (∀ (req : ApplyRequest) (ts rnd now : Nat) (m : String)
       (disk : List String) (store : List ApplicationRec) (fname : String),
       multerSingle req.file ts rnd = .written fname →
       applicationValidate req.body (resumeUrlFor req fname) = [] →
       (postApply req ts rnd now (.fail m) disk store).resp =
         { status := 500, success := false,
           message := "Error submitting application. Please try again." }) ∧
    (∀ m : String, m ≠ "" →
       errorHandler (.plain m) =
         { status := 500, success := false, message := m }) ∧
    errorHandler .multerSize =
      { status := 400, success := false,
        message := "File is too large. Maximum size is 5MB" } ∧
    errorHandler .multerOther =
      { status := 400, success := false, message := "Error uploading file" } := by
  refine ⟨?_, ?_, ?_, rfl, rfl⟩
  · intro b now m store hval
    simp [postContact, saveContact, hval]
  · intro req ts rnd now m disk store fname hw hval
    simp [postApply, hw, saveApplication, hval]
  · intro m hm
    have : (m == "") = false := by
      simp
      exact hm
    simp [errorHandler, this]

/-- Witness for the amended C9 at concrete inputs. -/
theorem error_messages_amended_witness :
    (postContact { name := some "A", email := some "a@b.com",
                   message := some "hi" } 0 (.fail "db down") []).1 =
      { status := 500, success := false,
        message := "Error submitting form. Please try again." } ∧
    errorHandler (.plain "boom") =
      { status := 500, success := false, message := "boom" } :=
  ⟨error_messages_amended.1
      { name := some "A", email := some "a@b.com", message := some "hi" }
      0 "db down" [] (by decide),
    error_messages_amended.2.2.1 "boom" (by decide)⟩

/-! ## Claims C4 and C5: contact submissions -/

theorem emailCheck_empty_false : emailCheck "" = false := by decide

/-- C4: a contact submission whose fields pass validation (non-empty name
and message, email matching the pattern) is persisted with exactly the
submitted values and answered HTTP 201 with the fixed acknowledgement,
for a healthy store. -/
theorem contact_valid_persisted
    (b : ContactBody) (now : Nat) (store : List ContactRec) (nm em ms : String)
    (hn : b.name = some nm) (hn2 : nm ≠ "")
    (he : b.email = some em) (hm : emailCheck em = true)
    (hs : b.message = some ms) (hs2 : ms ≠ "") :
    postContact b now .ok store =
      ({ status := 201, success := true,
         message := "Thank you! We will connect shortly." },
       store ++ [{ name := nm, email := em, message := ms, createdAt := now }]) := by
  have hem : em ≠ "" := by
    intro h
    rw [h] at hm
    exact absurd hm (by rw [emailCheck_empty_false]; decide)
  have hval : contactValidate b = [] := by
    simp [contactValidate, requiredError, emailErrors, hn, he, hs, hn2, hs2,
      hem, hm]
  simp [postContact, saveContact, hval, hn, he, hs]

/-- Witness for C4 at a concrete valid submission. -/
theorem contact_valid_persisted_witness :
    postContact { name := some "Jane", email := some "a@b.com",
                  message := some "hi" } 7 .ok [] =
      ({ status := 201, success := true,
         message := "Thank you! We will connect shortly." },
       [{ name := "Jane", email := "a@b.com", message := "hi", createdAt := 7 }]) :=
  contact_valid_persisted _ 7 [] "Jane" "a@b.com" "hi" rfl (by decide) rfl
    (by decide) rfl (by decide)

theorem required_mem {v : Option String} {msg : String} (h : fieldMissing v) :
    msg ∈ requiredError v msg := by
  rcases h with h | h <;> simp [requiredError, h]

theorem email_required_mem {v : Option String} (h : fieldMissing v) :
    "Email is required" ∈ emailErrors v := by
  rcases h with h | h <;> simp [emailErrors, h]

/-- A member of a joined list occurs contiguously in the joined string. -/
theorem mem_joinSep (sep : String) :
    ∀ (l : List String) (s : String), s ∈ l →
      containsSub (joinSep sep l).data s.data
  | [], s, h => absurd h (by simp)
  | [x], s, h => by
      have hx : s = x := by simpa using h
      exact ⟨[], [], by simp [hx, joinSep]⟩
  | x :: y :: rest, s, h => by
      rcases List.mem_cons.mp h with hx | hmem
      · exact ⟨[], (sep ++ joinSep sep (y :: rest)).data, by
          simp [hx, joinSep, String.data_append, List.append_assoc]⟩
      · obtain ⟨pre, post, hpq⟩ := mem_joinSep sep (y :: rest) s hmem
        exact ⟨(x ++ sep).data ++ pre, post, by
          simp [joinSep, String.data_append, hpq, List.append_assoc]⟩

/-- C5: a contact submission with a missing (or present-but-empty) required
field is answered HTTP 400 with success = false; the response message is the
join of the per-field violation messages, and it contains the violation text
of every missing field; the store is unchanged. -/
theorem contact_missing_field_400
    (b : ContactBody) (now : Nat) (db : DbOutcome) (store : List ContactRec)
    (hmiss : fieldMissing b.name ∨ fieldMissing b.email ∨ fieldMissing b.message) :
    (postContact b now db store).1.status = 400 ∧
    (postContact b now db store).1.success = false ∧
    (postContact b now db store).1.message = joinSep ". " (contactValidate b) ∧
    (postContact b now db store).2 = store ∧
    (fieldMissing b.name →
      containsSub (postContact b now db store).1.message.data
        ("Name is required" : String).data) ∧
    (fieldMissing b.email →
      containsSub (postContact b now db store).1.message.data
        ("Email is required" : String).data) ∧
    (fieldMissing b.message →
      containsSub (postContact b now db store).1.message.data
        ("Message is required" : String).data) := by
  have hmem1 : fieldMissing b.name → "Name is required" ∈ contactValidate b := by
    intro h
    exact List.mem_append_left _ (List.mem_append_left _ (required_mem h))
  have hmem2 : fieldMissing b.email → "Email is required" ∈ contactValidate b := by
    intro h
    exact List.mem_append_left _ (List.mem_append_right _ (email_required_mem h))
  have hmem3 : fieldMissing b.message → "Message is required" ∈ contactValidate b := by
    intro h
    exact List.mem_append_right _ (required_mem h)
  have hne : contactValidate b ≠ [] := by
    rcases hmiss with h | h | h
    · exact List.ne_nil_of_mem (hmem1 h)
    · exact List.ne_nil_of_mem (hmem2 h)
    · exact List.ne_nil_of_mem (hmem3 h)
  obtain ⟨e, rest, hcons⟩ := List.exists_cons_of_ne_nil hne
  have hpost : postContact b now db store =
      ({ status := 400, success := false,
         message := joinSep ". " (contactValidate b) }, store) := by
    simp only [postContact, saveContact, hcons]
  rw [hpost]
  exact ⟨rfl, rfl, rfl, rfl,
    fun h => mem_joinSep ". " _ _ (hmem1 h),
    fun h => mem_joinSep ". " _ _ (hmem2 h),
    fun h => mem_joinSep ". " _ _ (hmem3 h)⟩

/-- Witness for C5 at the spec's own example `{name:"", email:"a@b.com",
message:"hi"}`. -/
theorem contact_missing_field_400_witness :
    (postContact { name := some "", email := some "a@b.com",
                   message := some "hi" } 0 .ok []).1.status = 400 ∧
    containsSub (postContact { name := some "", email := some "a@b.com",
                               message := some "hi" } 0 .ok []).1.message.data
      ("Name is required" : String).data :=
  ⟨(contact_missing_field_400 _ 0 .ok [] (Or.inl (Or.inr rfl))).1,
   (contact_missing_field_400 _ 0 .ok [] (Or.inl (Or.inr rfl))).2.2.2.2.1
     (Or.inr rfl)⟩

/-! ## Claim C6: the listing endpoint -/

/-- C6: `GET /api/applications` answers 200/success with all persisted
Application records (a permutation of the store) in non-increasing
createdAt order. -/
theorem applications_sorted_desc (store : List ApplicationRec) :
    (getApplications store).status = 200 ∧
    (getApplications store).success = true ∧
    (getApplications store).data.Perm store ∧
    (getApplications store).data.Pairwise
      (fun a b => b.createdAt ≤ a.createdAt) := by
  refine ⟨rfl, rfl, List.mergeSort_perm store createdAtDesc, ?_⟩
  have htrans : ∀ a b c : ApplicationRec, createdAtDesc a b = true →
      createdAtDesc b c = true → createdAtDesc a c = true := by
    intro a b c hab hbc
    simp only [createdAtDesc, decide_eq_true_eq] at hab hbc ⊢
    omega
  have htotal : ∀ a b : ApplicationRec,
      (createdAtDesc a b || createdAtDesc b a) = true := by
    intro a b
    simp only [createdAtDesc, Bool.or_eq_true, decide_eq_true_eq]
    omega
  have h := List.sorted_mergeSort htrans htotal store
  exact h.imp (fun hab => by
    simpa only [createdAtDesc, decide_eq_true_eq] using hab)

/-! ## Claim C1: cleanup on save failure -/

/-- C1: once the uploaded file has been accepted and written under `fname`,
any failure of the Application save leaves the uploads directory without
`fname` and the store unchanged; and the store only ever changes in the
branch where the written file is still on disk (so no Application record is
persisted without its resume file having been written first). -/
theorem apply_cleanup_on_save_failure
    (req : ApplyRequest) (ts rnd now : Nat) (db : DbOutcome)
    (disk : List String) (store : List ApplicationRec) (fname : String)
    (hw : multerSingle req.file ts rnd = .written fname) :
    (∀ e, saveApplication req.body (resumeUrlFor req fname) now db store =
        .error e →
      fname ∉ (postApply req ts rnd now db disk store).disk ∧
      (postApply req ts rnd now db disk store).store = store) ∧
    ((postApply req ts rnd now db disk store).store ≠ store →
      fname ∈ (postApply req ts rnd now db disk store).disk ∧
      (postApply req ts rnd now db disk store).resp.status = 201) := by
  cases hsave : saveApplication req.body (resumeUrlFor req fname) now db store with
  | ok store2 =>
    constructor
    · intro e he
      cases he
    · intro _
      constructor
      · simp [postApply, hw, hsave, writeFile]
      · simp [postApply, hw, hsave]
  | error err =>
    constructor
    · intro e he
      cases err with
      | validation msgs =>
        constructor
        · simp [postApply, hw, hsave, unlinkFile, List.mem_filter]
        · simp [postApply, hw, hsave]
      | other m =>
        constructor
        · simp [postApply, hw, hsave, unlinkFile, List.mem_filter]
        · simp [postApply, hw, hsave]
    · intro hch
      exfalso
      apply hch
      cases err with
      | validation msgs => simp [postApply, hw, hsave]
      | other m => simp [postApply, hw, hsave]

/-- Witness for C1: a concrete PDF submission whose save fails with a store
error; the written file `1-2.pdf` is gone afterwards and nothing was
persisted. -/
theorem apply_cleanup_on_save_failure_witness :
    "1-2.pdf" ∉ (postApply pdfRequest 1 2 0 (.fail "down") ["old.pdf"] []).disk ∧
    (postApply pdfRequest 1 2 0 (.fail "down") ["old.pdf"] []).store = [] :=
  (apply_cleanup_on_save_failure pdfRequest 1 2 0 (.fail "down") ["old.pdf"] []
      "1-2.pdf" rfl).1 (.other "down") rfl

/-! ## Decimal rendering lemmas -/

theorem decDigitsAux_eq : ∀ (fuel n : Nat), 0 < n → n ≤ fuel →
    decDigitsAux fuel n = Nat.digits 10 n := by
  intro fuel
  induction fuel with
  | zero => intro n h1 h2; omega
  | succ fuel ih =>
    intro n h1 h2
    cases n with
    | zero => omega
    | succ m =>
      rw [decDigitsAux,
        Nat.digits_def' (by norm_num : (1 : Nat) < 10) (Nat.succ_pos m)]
      congr 1
      by_cases hz : (m + 1) / 10 = 0
      · rw [hz]
        simp [decDigitsAux]
      · have hfuel : (m + 1) / 10 ≤ fuel := by
          have := Nat.div_lt_self (Nat.succ_pos m) (by norm_num : 1 < 10)
          omega
        exact ih _ (Nat.pos_of_ne_zero hz) hfuel

theorem digitChar_inj10 :
    ∀ d, d < 10 → ∀ e, e < 10 → Nat.digitChar d = Nat.digitChar e → d = e := by
  decide

theorem digitChar_ne_dash : ∀ d, d < 10 → Nat.digitChar d ≠ '-' := by decide

theorem numToStr_digits {n : Nat} (hn : n ≠ 0) :
    numToStr n = ⟨((Nat.digits 10 n).map Nat.digitChar).reverse⟩ := by
  rw [numToStr, if_neg hn, decDigitsAux_eq n n (Nat.pos_of_ne_zero hn) le_rfl]

theorem numToStr_no_dash (n : Nat) : ∀ c ∈ (numToStr n).data, c ≠ '-' := by
  intro c hc
  by_cases hn : n = 0
  · subst hn
    have : c = '0' := by simpa [numToStr] using hc
    subst this
    decide
  · rw [numToStr_digits hn] at hc
    have hc2 : c ∈ ((Nat.digits 10 n).map Nat.digitChar).reverse := hc
    rw [List.mem_reverse, List.mem_map] at hc2
    obtain ⟨d, hd, hdc⟩ := hc2
    exact hdc ▸ digitChar_ne_dash d (Nat.digits_lt_base (by norm_num) hd)

theorem map_digitChar_inj :
    ∀ (l₁ l₂ : List Nat), (∀ d ∈ l₁, d < 10) → (∀ d ∈ l₂, d < 10) →
      l₁.map Nat.digitChar = l₂.map Nat.digitChar → l₁ = l₂
  | [], [], _, _, _ => rfl
  | [], _ :: _, _, _, h => by simp at h
  | _ :: _, [], _, _, h => by simp at h
  | d₁ :: t₁, d₂ :: t₂, h₁, h₂, h => by
      simp only [List.map_cons, List.cons.injEq] at h
      have hd := digitChar_inj10 d₁ (h₁ d₁ (by simp)) d₂ (h₂ d₂ (by simp)) h.1
      have ht := map_digitChar_inj t₁ t₂ (fun d hd2 => h₁ d (by simp [hd2]))
        (fun d hd2 => h₂ d (by simp [hd2])) h.2
      rw [hd, ht]

theorem numToStr_eq_zero_str {n : Nat} (h : numToStr n = "0") : n = 0 := by
  by_contra hn
  rw [numToStr_digits hn] at h
  have hd : ((Nat.digits 10 n).map Nat.digitChar).reverse = ['0'] :=
    (congrArg String.data h.symm).symm
  have hmap : (Nat.digits 10 n).map Nat.digitChar = ['0'] := by
    have := congrArg List.reverse hd
    simpa using this
  have hdig : Nat.digits 10 n = [0] := by
    apply map_digitChar_inj _ _
      (fun d hd2 => Nat.digits_lt_base (by norm_num) hd2)
      (fun d hd2 => by simp at hd2; omega)
    rw [hmap]
    decide
  have h0 := Nat.ofDigits_digits 10 n
  rw [hdig] at h0
  simp [Nat.ofDigits] at h0
  omega

theorem numToStr_inj {m n : Nat} (h : numToStr m = numToStr n) : m = n := by
  by_cases hm : m = 0
  · subst hm
    exact (numToStr_eq_zero_str ((by simpa [numToStr] using h.symm))).symm
  · by_cases hn : n = 0
    · subst hn
      exact numToStr_eq_zero_str (by simpa [numToStr] using h)
    · rw [numToStr_digits hm, numToStr_digits hn] at h
      have hd : ((Nat.digits 10 m).map Nat.digitChar).reverse =
          ((Nat.digits 10 n).map Nat.digitChar).reverse := congrArg String.data h
      rw [List.reverse_inj] at hd
      have hdig := map_digitChar_inj _ _
        (fun d hd2 => Nat.digits_lt_base (by norm_num) hd2)
        (fun d hd2 => Nat.digits_lt_base (by norm_num) hd2) hd
      rw [← Nat.ofDigits_digits 10 m, ← Nat.ofDigits_digits 10 n, hdig]

theorem dash_split :
    ∀ (a₁ a₂ t₁ t₂ : List Char), (∀ c ∈ a₁, c ≠ '-') → (∀ c ∈ a₂, c ≠ '-') →
      a₁ ++ '-' :: t₁ = a₂ ++ '-' :: t₂ → a₁ = a₂ ∧ t₁ = t₂
  | [], [], t₁, t₂, _, _, h => by
      simp only [List.nil_append] at h
      exact ⟨rfl, (List.cons.injEq _ _ _ _ ▸ h).2⟩
  | [], c :: a₂, t₁, t₂, _, h₂, h => by
      simp only [List.nil_append, List.cons_append] at h
      injection h with hc _
      exact absurd hc.symm (h₂ c (by simp))
  | c :: a₁, [], t₁, t₂, h₁, _, h => by
      simp only [List.nil_append, List.cons_append] at h
      injection h with hc _
      exact absurd hc (h₁ c (by simp))
  | c₁ :: a₁, c₂ :: a₂, t₁, t₂, h₁, h₂, h => by
      simp only [List.cons_append] at h
      injection h with hc ht
      obtain ⟨ha, htt⟩ := dash_split a₁ a₂ t₁ t₂
        (fun c hc2 => h₁ c (by simp [hc2])) (fun c hc2 => h₂ c (by simp [hc2])) ht
      exact ⟨by rw [hc, ha], htt⟩

/-! ## Claim C7: shape of the generated filename -/

/-- C7 (counterexample to the literal `.pdf` extension): an accepted upload
whose original name is `cv.doc` is stored as `1700-42.doc`, whose last four
characters are not `.pdf` — the extension is copied from the original
filename, not fixed to `.pdf`. -/
theorem filename_not_always_pdf :
    filenameFor 1700 42 "cv.doc" = "1700-42.doc" ∧
    (filenameFor 1700 42 "cv.doc").data.reverse.take 4 ≠
      (".pdf" : String).data.reverse := by
  constructor
  · rfl
  · decide

/-- C7 (amended): the generated filename is the upload timestamp, a hyphen,
the random suffix, and `path.extname` of the original filename; it ends in
`.pdf` exactly when that extension is `.pdf`. -/
theorem filename_shape (ts rnd : Nat) (orig : String) :
    filenameFor ts rnd orig =
      numToStr ts ++ "-" ++ numToStr rnd ++ extname orig ∧
    (filenameFor ts rnd orig = numToStr ts ++ "-" ++ numToStr rnd ++ ".pdf" ↔
      extname orig = ".pdf") := by
  refine ⟨rfl, ?_, ?_⟩
  · intro h
    rw [filenameFor] at h
    have hd := congrArg String.data h
    simp only [String.data_append] at hd
    exact String.ext (List.append_cancel_left hd)
  · intro h
    rw [filenameFor, h]

/-- Witness for the amended C7 at concrete inputs. -/
theorem filename_shape_witness :
    filenameFor 1 2 "a.pdf" =
      numToStr 1 ++ "-" ++ numToStr 2 ++ extname "a.pdf" ∧
    (filenameFor 1 2 "a.pdf" = numToStr 1 ++ "-" ++ numToStr 2 ++ ".pdf" ↔
      extname "a.pdf" = ".pdf") :=
  filename_shape 1 2 "a.pdf"

/-! ## Claim C8: distinctness of generated filenames -/

/-- C8 (counterexample): 1000 simultaneous uploads that all observe the same
millisecond and draw the same random number produce 1000 identical stored
filenames, so the generated names are not pairwise distinct. -/
theorem uploads1000_collision :
    uploads1000.length = 1000 ∧ ¬ uploads1000.Nodup := by
  constructor
  · rw [uploads1000, List.length_map, List.length_replicate]
  · rw [uploads1000, List.map_replicate]
    intro hnd
    rw [List.nodup_replicate] at hnd
    omega

/-- C8 (amended): the generated filename determines the (timestamp, random)
pair — two uploads with the same original extension and distinct
(timestamp, random) pairs get distinct stored names, so a collision requires
colliding draws, which the code does not rule out. -/
theorem filename_pairs_inj
    (ts₁ rnd₁ ts₂ rnd₂ : Nat) (o₁ o₂ : String)
    (hext : extname o₁ = extname o₂)
    (hne : (ts₁, rnd₁) ≠ (ts₂, rnd₂)) :
    filenameFor ts₁ rnd₁ o₁ ≠ filenameFor ts₂ rnd₂ o₂ := by
  intro h
  apply hne
  rw [filenameFor, filenameFor, hext] at h
  have hd := congrArg String.data h
  simp only [String.data_append, List.append_assoc] at hd
  have hd2 : (numToStr ts₁).data ++
      '-' :: ((numToStr rnd₁).data ++ (extname o₂).data) =
      (numToStr ts₂).data ++
      '-' :: ((numToStr rnd₂).data ++ (extname o₂).data) := by
    simpa using hd
  obtain ⟨hts, hrest⟩ := dash_split _ _ _ _
    (numToStr_no_dash ts₁) (numToStr_no_dash ts₂) hd2
  have hts2 : ts₁ = ts₂ := numToStr_inj (String.ext hts)
  have hrnd2 : rnd₁ = rnd₂ :=
    numToStr_inj (String.ext (List.append_cancel_right hrest))
  rw [hts2, hrnd2]

/-- Witness for the amended C8 at concrete draws. -/
theorem filename_pairs_inj_witness :
    filenameFor 1700 42 "a.pdf" ≠ filenameFor 1700 43 "b.pdf" :=
  filename_pairs_inj 1700 42 1700 43 "a.pdf" "b.pdf" (by decide) (by decide)

/-! ## Claim C10: the email pattern constrains the top-level domain -/

theorem star_last_aux : ∀ {r : Rgx} {v : List Char}, RMatch r v →
    ∀ C : Rgx, r = Rgx.star C →
      v = [] ∨ ∃ v' c, v = v' ++ c ∧ RMatch C c := by
  intro r v h
  induction h with
  | eps => intro C hC; cases hC
  | cls hp => intro C hC; cases hC
  | altL h ih => intro C hC; cases hC
  | altR h ih => intro C hC; cases hC
  | cat h₁ h₂ ih₁ ih₂ => intro C hC; cases hC
  | starNil => intro C hC; exact Or.inl rfl
  | @starCons r' l₁ l₂ h₁ h₂ ih₁ ih₂ =>
      intro C hC
      injection hC with hC2
      subst hC2
      rcases ih₂ _ rfl with h0 | ⟨v', c, hv, hc⟩
      · subst h0
        refine Or.inr ⟨[], l₁, ?_, h₁⟩
        simp
      · subst hv
        refine Or.inr ⟨l₁ ++ v', c, ?_, hc⟩
        simp

theorem star_last {C : Rgx} {v : List Char} (h : RMatch (.star C) v) :
    v = [] ∨ ∃ v' c, v = v' ++ c ∧ RMatch C c :=
  star_last_aux h C rfl

/-- A match of `r+` ends with a full match of `r`. -/
theorem plus_last {C : Rgx} {v : List Char} (h : RMatch (rplus C) v) :
    ∃ v' c, v = v' ++ c ∧ RMatch C c := by
  cases h with
  | @cat r1 r2 l₁ l₂ h₁ h₂ =>
    rcases star_last h₂ with h0 | ⟨v', c, hv, hc⟩
    · subst h0
      refine ⟨[], l₁, ?_, h₁⟩
      simp
    · subst hv
      refine ⟨l₁ ++ v', c, ?_, hc⟩
      simp

theorem ropt_elim {r : Rgx} {l : List Char} (h : RMatch (ropt r) l) :
    l = [] ∨ RMatch r l := by
  cases h with
  | altL h => cases h; exact Or.inl rfl
  | altR h => exact Or.inr h

theorem cls_elim {p : Char → Bool} {l : List Char} (h : RMatch (.cls p) l) :
    ∃ c, l = [c] ∧ p c = true := by
  cases h with
  | cls hp => exact ⟨_, rfl, hp⟩

/-- A match of the chunk `\.\w{2,3}` is a dot followed by two or three word
characters. -/
theorem tldChunk_shape {l : List Char} (h : RMatch tldChunk l) :
    ∃ ws, l = '.' :: ws ∧ (ws.length = 2 ∨ ws.length = 3) ∧
      ws.all isWordChar = true := by
  cases h with
  | cat hdot hrest =>
    obtain ⟨c0, rfl, hp⟩ := cls_elim hdot
    have hc0 : c0 = '.' := eq_of_beq hp
    subst hc0
    cases hrest with
    | cat ha hrest2 =>
      obtain ⟨a, rfl, hpa⟩ := cls_elim ha
      cases hrest2 with
      | cat hb hopt =>
        obtain ⟨b, rfl, hpb⟩ := cls_elim hb
        rcases ropt_elim hopt with h0 | hcw
        · subst h0
          exact ⟨[a, b], by simp, Or.inl rfl, by simp [hpa, hpb]⟩
        · obtain ⟨cw, rfl, hpc⟩ := cls_elim hcw
          exact ⟨[a, b, cw], by simp, Or.inr rfl, by simp [hpa, hpb, hpc]⟩

theorem takeWhile_all_append {p : Char → Bool} :
    ∀ (l₁ l₂ : List Char), l₁.all p = true →
      List.takeWhile p (l₁ ++ l₂) = l₁ ++ List.takeWhile p l₂
  | [], l₂, _ => by simp
  | c :: t, l₂, h => by
      simp only [List.all_cons, Bool.and_eq_true] at h
      simp [List.takeWhile_cons, h.1, takeWhile_all_append t l₂ h.2]

/-- The final dot-separated label of `u ++ '.' :: ws` is `ws` whenever `ws`
contains no dot. -/
theorem afterLastDot_append (u ws : List Char)
    (hws : ws.all (fun c => c != '.') = true) :
    afterLastDot (u ++ '.' :: ws) = ws := by
  rw [afterLastDot, List.reverse_append, List.reverse_cons, List.append_assoc,
    takeWhile_all_append _ _ (by simpa using hws)]
  simp [List.takeWhile_cons]

theorem word_no_dot {ws : List Char} (h : ws.all isWordChar = true) :
    ws.all (fun c => c != '.') = true := by
  rw [List.all_eq_true] at h ⊢
  intro c hc
  have hw := h c hc
  have hne : c ≠ '.' := by
    intro hh
    rw [hh] at hw
    exact absurd hw (by decide)
  simpa using hne

/-- C10: any string accepted by the schema email pattern has a final
dot-separated label of two or three word characters; in particular
`a@b.info` (top-level domain of four characters) is rejected with the
email-pattern validation message. -/
theorem email_tld_constraint :
    (∀ s : String, emailCheck s = true →
      2 ≤ (afterLastDot s.data).length ∧ (afterLastDot s.data).length ≤ 3 ∧
      (afterLastDot s.data).all isWordChar = true) ∧
    emailCheck "a@b.info" = false ∧
    emailErrors (some "a@b.info") = ["Please enter a valid email address"] := by
  refine ⟨?_, by decide, by decide⟩
  suffices hgen : ∀ l : List Char, RMatch emailRegex l →
      2 ≤ (afterLastDot l).length ∧ (afterLastDot l).length ≤ 3 ∧
      (afterLastDot l).all isWordChar = true by
    intro s hs
    exact hgen s.data (rmatch_sound hs)
  intro l h
  rw [emailRegex] at h
  cases h with
  | cat h₁ h₂ =>
    cases h₂ with
    | cat h₃ h₄ =>
      cases h₄ with
      | cat h₅ h₆ =>
        rw [tldPart] at h₆
        obtain ⟨w, chunk, hv, hchunk⟩ := plus_last h₆
        obtain ⟨ws, hc, hlen, hall⟩ := tldChunk_shape hchunk
        subst hc
        subst hv
        rw [show ∀ (a b c d : List Char),
              a ++ (b ++ (c ++ (d ++ '.' :: ws))) =
                (a ++ (b ++ (c ++ d))) ++ '.' :: ws from
            fun a b c d => by simp [List.append_assoc],
          afterLastDot_append _ ws (word_no_dot hall)]
        rcases hlen with hlen | hlen <;> exact ⟨by omega, by omega, hall⟩

/-- Witness for C10 at the accepted address `a@b.com`. -/
theorem email_tld_constraint_witness :
    2 ≤ (afterLastDot ("a@b.com" : String).data).length ∧
    (afterLastDot ("a@b.com" : String).data).length ≤ 3 ∧
    (afterLastDot ("a@b.com" : String).data).all isWordChar = true :=
  email_tld_constraint.1 "a@b.com" (by decide)

end Backend
